import Mathlib

/-!
Verification of the names-webapp storage core: a shallow embedding of the
two relational backends (`rest/db/sqlite_backend.py`, `rest/db/postgres_backend.py`)
and the ingestion pipeline (`data/data_ingestion.py`), with theorems settling
the specification claims about query semantics, ranking, ingestion row
handling and batch-commit behaviour.

Modelling conventions:
* A database state is the list of rows of each table, in insertion order.
* SQL aggregation is modelled compositionally: `WHERE` is `List.filter`,
  `SUM` is `List.sum` over the projected column, `GROUP BY k` enumerates the
  distinct values of `k` (`List.dedup`; SQL leaves the group output order
  unspecified, the model fixes one deterministic order), `ORDER BY` is a
  stable insertion sort (SQL leaves tie order unspecified; both engines are
  modelled with the same stable order, which is the reading the spec's
  "ties broken by arbitrary but stable row order" asks for), `LIMIT` is
  `List.take`, and `ROW_NUMBER() OVER (ORDER BY ...)` is position + 1 in the
  sorted list.
* SQLite compares `TEXT` with the default BINARY collation, so `name = ?`
  is exact string equality; Postgres `LOWER(name) = LOWER(%s)` lower-cases
  both sides.  SQLite's `LIKE` folds ASCII case, which is modelled by
  lower-casing pattern and subject before a case-sensitive match — the same
  model as Postgres's `LOWER(name) LIKE LOWER(pattern)`.
* Machine integers are `Int`; SQL integer division (`year / 10`) truncates
  toward zero exactly as Lean's `Int` division does.
-/

namespace NamesWebapp

/-- Row of the `ssa_names` table: `(name, gender, count, year)`. -/
structure NationalRow where
  name : String
  gender : String
  count : Int
  year : Int
deriving DecidableEq, Repr

/-- Row of the `ssa_names_by_state` table: `(state, name, gender, count, year)`. -/
structure StateRow where
  state : String
  name : String
  gender : String
  count : Int
  year : Int
deriving DecidableEq, Repr

/-- Database state: contents of the two tables, in insertion order. -/
structure DB where
  national : List NationalRow
  byState : List StateRow
deriving DecidableEq, Repr

/-- Result shape `YearCount` from `rest/models.py`. -/
structure YearCount where
  year : Int
  count : Int
deriving DecidableEq, Repr

/-- Result shape `GenderBreakdown` from `rest/models.py`. -/
structure GenderBreakdown where
  gender : String
  total_count : Int
deriving DecidableEq, Repr

/-- Result shape `NameStats` from `rest/models.py`. -/
structure NameStats where
  name : String
  total_count : Int
  peak_year : Int
  peak_count : Int
  first_year : Int
  last_year : Int
  gender_breakdown : List GenderBreakdown
deriving DecidableEq, Repr

/-- Result shape `RankedName` from `rest/models.py`; `rank` is `ROW_NUMBER`, so positive. -/
structure RankedName where
  name : String
  gender : String
  count : Int
  rank : Nat
deriving DecidableEq, Repr

/-- Result shape `DecadeTrend` from `rest/models.py`. -/
structure DecadeTrend where
  decade : Int
  count : Int
deriving DecidableEq, Repr

/-- Result shape `StateCount` from `rest/models.py`. -/
structure StateCount where
  state : String
  count : Int
deriving DecidableEq, Repr

/-- Result shape `NameSearchResult` from `rest/models.py`. -/
structure NameSearchResult where
  name : String
  total_count : Int
deriving DecidableEq, Repr

/-- Python truthiness of an `Optional[str]` argument: `None` and the empty
string are falsy.  Both backends select their filtered SQL branch with
`if gender:` / `if state:`, i.e. by truthiness, not by presence. -/
def pyTruthy : Option String → Bool
  | none => false
  | some s => !s.isEmpty

/-- Python truthiness of an `Optional[int]` argument: `None` and `0` are falsy. -/
def pyTruthyInt : Option Int → Bool
  | none => false
  | some n => n != 0

/-- ASCII lower-casing of a string, character by character: the behaviour of
Postgres `LOWER` and of SQLite's LIKE case folding on the ASCII data this
system stores (`Char.toLower` lowers exactly the ASCII uppercase letters). -/
def lowerStr (s : String) : String := ⟨s.data.map Char.toLower⟩

/-- Ordering relation for `ORDER BY count DESC` on national rows:
`a` may precede `b` when `b.count ≤ a.count`. -/
def natRowGe (a b : NationalRow) : Prop := b.count ≤ a.count

instance : DecidableRel natRowGe := fun a b => inferInstanceAs (Decidable (b.count ≤ a.count))

instance : IsTotal NationalRow natRowGe := ⟨fun a b => le_total b.count a.count⟩

instance : IsTrans NationalRow natRowGe := ⟨fun _ _ _ h1 h2 => le_trans h2 h1⟩

/-- Ordering relation for `ORDER BY count DESC` on state aggregates. -/
def stateCountGe (a b : StateCount) : Prop := b.count ≤ a.count

instance : DecidableRel stateCountGe := fun a b => inferInstanceAs (Decidable (b.count ≤ a.count))

instance : IsTotal StateCount stateCountGe := ⟨fun a b => le_total b.count a.count⟩

instance : IsTrans StateCount stateCountGe := ⟨fun _ _ _ h1 h2 => le_trans h2 h1⟩

/-- Ordering relation for `ORDER BY total_count DESC` on search aggregates. -/
def searchGe (a b : NameSearchResult) : Prop := b.total_count ≤ a.total_count

instance : DecidableRel searchGe := fun a b => inferInstanceAs (Decidable (b.total_count ≤ a.total_count))

instance : IsTotal NameSearchResult searchGe := ⟨fun a b => le_total b.total_count a.total_count⟩

instance : IsTrans NameSearchResult searchGe := ⟨fun _ _ _ h1 h2 => le_trans h2 h1⟩

/-- SQLite `WHERE name = ?` on `TEXT` columns: BINARY collation, exact equality. -/
def sqliteNameEq (key : String) (r : NationalRow) : Bool := r.name == key

/-- Postgres `WHERE LOWER(name) = LOWER(%s)`: both sides lower-cased. -/
def pgNameEq (key : String) (r : NationalRow) : Bool := lowerStr r.name == lowerStr key

/-- SELECT year, SUM(count) ... GROUP BY year ORDER BY year, over already-filtered rows. -/
def yearSums (rows : List NationalRow) : List YearCount :=
  (List.insertionSort (fun a b => a ≤ b) (rows.map (·.year)).dedup).map
    (fun y => ⟨y, ((rows.filter (fun r => r.year == y)).map (·.count)).sum⟩)

/-- SELECT gender, SUM(count) ... GROUP BY gender, over already-filtered rows.
The SQL has no ORDER BY; the model fixes one deterministic group order. -/
def genderSums (rows : List NationalRow) : List GenderBreakdown :=
  (rows.map (·.gender)).dedup.map
    (fun g => ⟨g, ((rows.filter (fun r => r.gender == g)).map (·.count)).sum⟩)

/-- Decade of a row as both engines compute it: `(year / 10) * 10` with SQL
integer division (truncation toward zero, as Lean's `Int` division). -/
def decadeOf (r : NationalRow) : Int := r.year / 10 * 10

/-- SELECT (year/10)*10 AS decade, SUM(count) ... GROUP BY decade ORDER BY decade. -/
def decadeSums (rows : List NationalRow) : List DecadeTrend :=
  (List.insertionSort (fun a b => a ≤ b) (rows.map decadeOf).dedup).map
    (fun d => ⟨d, ((rows.filter (fun r => decadeOf r == d)).map (·.count)).sum⟩)

/-- SELECT state, SUM(count) ... GROUP BY state ORDER BY count DESC, over filtered state rows. -/
def stateSums (rows : List StateRow) : List StateCount :=
  List.insertionSort stateCountGe
    ((rows.map (·.state)).dedup.map
      (fun s => StateCount.mk s ((rows.filter (fun r => r.state == s)).map (·.count)).sum))

/-- SELECT name, SUM(count) ... GROUP BY name ORDER BY total_count DESC, over filtered rows. -/
def nameSums (rows : List NationalRow) : List NameSearchResult :=
  List.insertionSort searchGe
    ((rows.map (·.name)).dedup.map
      (fun n => NameSearchResult.mk n ((rows.filter (fun r => r.name == n)).map (·.count)).sum))

/-- The shared body of `get_name_stats` (both engines run the same SELECTs on
their name-filtered rows): the aggregate summary row, the `ORDER BY count
DESC LIMIT 1` peak row, and the gender breakdown; `None` when `SUM(count)`
is NULL, i.e. when no row matches. -/
def statsQuery (key : String) (rows : List NationalRow) : Option NameStats :=
  match rows with
  | [] => none
  | r0 :: rest =>
    some
      { name := key
        total_count := ((r0 :: rest).map (·.count)).sum
        peak_year := ((List.insertionSort natRowGe (r0 :: rest)).headD r0).year
        peak_count := rest.foldl (fun m r => max m r.count) r0.count
        first_year := rest.foldl (fun m r => min m r.year) r0.year
        last_year := rest.foldl (fun m r => max m r.year) r0.year
        gender_breakdown := genderSums (r0 :: rest) }

/-- ROW_NUMBER() OVER (ORDER BY count DESC) attached to every selected row,
output in the same order (stable sort, rank = position + 1). -/
def rankAll (rows : List NationalRow) : List RankedName :=
  (List.insertionSort natRowGe rows).enum.map (fun p => ⟨p.2.name, p.2.gender, p.2.count, p.1 + 1⟩)

/-- Check the given property on some suffix of a character list. -/
def anySuffix (f : List Char → Bool) : List Char → Bool
  | [] => f []
  | c :: cs => f (c :: cs) || anySuffix f cs

/-- SQL LIKE matcher: `%` matches any run of characters (the rest of the
pattern must match some suffix of the subject), `_` any single character,
anything else itself (no ESCAPE clause is used in the code). -/
def likeMatch : List Char → List Char → Bool
  | [], s => s.isEmpty
  | p :: ps, s =>
    if p = '%' then anySuffix (likeMatch ps) s
    else
      match s with
      | [] => false
      | c :: cs => (if p = '_' then true else p == c) && likeMatch ps cs

/-- Case-insensitive LIKE as both engines express it: SQLite `name LIKE ?`
folds ASCII case natively; Postgres lower-cases both sides explicitly. -/
def ciLike (pat subj : String) : Bool := likeMatch (lowerStr pat).data (lowerStr subj).data

/-- SQLiteBackend.get_name_records: `WHERE name = ?` (BINARY collation). -/
def SQLiteBackend.get_name_records (db : DB) (name : String) : List NationalRow :=
  db.national.filter (sqliteNameEq name)

/-- PostgresBackend.get_name_records: `WHERE LOWER(name) = LOWER(%s)`. -/
def PostgresBackend.get_name_records (db : DB) (name : String) : List NationalRow :=
  db.national.filter (pgNameEq name)

/-- SQLiteBackend.get_name_trends: per-year sums, gender filter chosen by truthiness. -/
def SQLiteBackend.get_name_trends (db : DB) (name : String) (gender : Option String) : List YearCount :=
  if pyTruthy gender then
    yearSums (db.national.filter (fun r => sqliteNameEq name r && r.gender == gender.getD ""))
  else
    yearSums (db.national.filter (sqliteNameEq name))

/-- PostgresBackend.get_name_trends. -/
def PostgresBackend.get_name_trends (db : DB) (name : String) (gender : Option String) : List YearCount :=
  if pyTruthy gender then
    yearSums (db.national.filter (fun r => pgNameEq name r && r.gender == gender.getD ""))
  else
    yearSums (db.national.filter (pgNameEq name))

/-- SQLiteBackend.get_name_stats. -/
def SQLiteBackend.get_name_stats (db : DB) (name : String) : Option NameStats :=
  statsQuery name (db.national.filter (sqliteNameEq name))

/-- PostgresBackend.get_name_stats. -/
def PostgresBackend.get_name_stats (db : DB) (name : String) : Option NameStats :=
  statsQuery name (db.national.filter (pgNameEq name))

/-- SQLiteBackend.get_gender_breakdown. -/
def SQLiteBackend.get_gender_breakdown (db : DB) (name : String) : List GenderBreakdown :=
  genderSums (db.national.filter (sqliteNameEq name))

/-- PostgresBackend.get_gender_breakdown. -/
def PostgresBackend.get_gender_breakdown (db : DB) (name : String) : List GenderBreakdown :=
  genderSums (db.national.filter (pgNameEq name))

/-- SQLiteBackend.get_top_names: rows of the year (and gender when truthy),
ranked by ROW_NUMBER over count descending, truncated to `limit`. -/
def SQLiteBackend.get_top_names (db : DB) (year : Int) (gender : Option String) (limit : Nat) : List RankedName :=
  if pyTruthy gender then
    (rankAll (db.national.filter (fun r => r.year == year && r.gender == gender.getD ""))).take limit
  else
    (rankAll (db.national.filter (fun r => r.year == year))).take limit

/-- PostgresBackend.get_top_names (same SQL as SQLite's, no name comparison involved). -/
def PostgresBackend.get_top_names (db : DB) (year : Int) (gender : Option String) (limit : Nat) : List RankedName :=
  if pyTruthy gender then
    (rankAll (db.national.filter (fun r => r.year == year && r.gender == gender.getD ""))).take limit
  else
    (rankAll (db.national.filter (fun r => r.year == year))).take limit

/-- SQLiteBackend.get_name_rank: first row of the ranked year+gender subquery
with `name = ?` (fetchone), mapped to its ROW_NUMBER; gender is always a
required filter here (no truthiness branch in the source). -/
def SQLiteBackend.get_name_rank (db : DB) (name : String) (year : Int) (gender : String) : Option Nat :=
  ((List.insertionSort natRowGe (db.national.filter (fun r => r.year == year && r.gender == gender))).enum.find?
    (fun p => p.2.name == name)).map (fun p => p.1 + 1)

/-- PostgresBackend.get_name_rank: as SQLite's but the outer filter is
`LOWER(name) = LOWER(%s)`. -/
def PostgresBackend.get_name_rank (db : DB) (name : String) (year : Int) (gender : String) : Option Nat :=
  ((List.insertionSort natRowGe (db.national.filter (fun r => r.year == year && r.gender == gender))).enum.find?
    (fun p => lowerStr p.2.name == lowerStr name)).map (fun p => p.1 + 1)

/-- SQLiteBackend.get_decade_trends. -/
def SQLiteBackend.get_decade_trends (db : DB) (name : String) (gender : Option String) : List DecadeTrend :=
  if pyTruthy gender then
    decadeSums (db.national.filter (fun r => sqliteNameEq name r && r.gender == gender.getD ""))
  else
    decadeSums (db.national.filter (sqliteNameEq name))

/-- PostgresBackend.get_decade_trends. -/
def PostgresBackend.get_decade_trends (db : DB) (name : String) (gender : Option String) : List DecadeTrend :=
  if pyTruthy gender then
    decadeSums (db.national.filter (fun r => pgNameEq name r && r.gender == gender.getD ""))
  else
    decadeSums (db.national.filter (pgNameEq name))

/-- SQLiteBackend.get_name_by_state: raw equality on name and on state. -/
def SQLiteBackend.get_name_by_state (db : DB) (name : String) (state : Option String) : List StateRow :=
  if pyTruthy state then
    db.byState.filter (fun r => r.name == name && r.state == state.getD "")
  else
    db.byState.filter (fun r => r.name == name)

/-- PostgresBackend.get_name_by_state: name lower-cased on both sides, state raw. -/
def PostgresBackend.get_name_by_state (db : DB) (name : String) (state : Option String) : List StateRow :=
  if pyTruthy state then
    db.byState.filter (fun r => lowerStr r.name == lowerStr name && r.state == state.getD "")
  else
    db.byState.filter (fun r => lowerStr r.name == lowerStr name)

/-- SQLiteBackend.get_state_distribution. -/
def SQLiteBackend.get_state_distribution (db : DB) (name : String) : List StateCount :=
  stateSums (db.byState.filter (fun r => r.name == name))

/-- PostgresBackend.get_state_distribution. -/
def PostgresBackend.get_state_distribution (db : DB) (name : String) : List StateCount :=
  stateSums (db.byState.filter (fun r => lowerStr r.name == lowerStr name))

/-- SQLiteBackend.search_names: `WHERE name LIKE ? || chr(37)` — the argument
is concatenated with a trailing percent and used as a LIKE pattern
(wildcards inside it stay active), matched with ASCII case folding. -/
def SQLiteBackend.search_names (db : DB) (pfx : String) (limit : Nat) : List NameSearchResult :=
  (nameSums (db.national.filter (fun r => ciLike (pfx ++ "%") r.name))).take limit

/-- PostgresBackend.search_names: `WHERE LOWER(name) LIKE LOWER(%s || chr(37))`. -/
def PostgresBackend.search_names (db : DB) (pfx : String) (limit : Nat) : List NameSearchResult :=
  (nameSums (db.national.filter (fun r => ciLike (pfx ++ "%") r.name))).take limit

/-- SQLiteBackend.get_unique_name_count: `COUNT(DISTINCT name)`, with the
year filter selected by truthiness (`if year:`), so year 0 is ignored. -/
def SQLiteBackend.get_unique_name_count (db : DB) (year : Option Int) : Nat :=
  if pyTruthyInt year then
    ((db.national.filter (fun r => r.year == year.getD 0)).map (·.name)).dedup.length
  else
    (db.national.map (·.name)).dedup.length

/-- PostgresBackend.get_unique_name_count (same SQL as SQLite's). -/
def PostgresBackend.get_unique_name_count (db : DB) (year : Option Int) : Nat :=
  if pyTruthyInt year then
    ((db.national.filter (fun r => r.year == year.getD 0)).map (·.name)).dedup.length
  else
    (db.national.map (·.name)).dedup.length

/-! ## Ingestion pipeline (`data/data_ingestion.py`) -/

/-- Value of a decimal digit sequence, or `none` when empty or non-digit. -/
def digitsToNat : List Char → Option Nat
  | [] => none
  | ds => ds.foldl (fun acc c =>
      acc.bind (fun n => if c.isDigit then some (n * 10 + (c.toNat - 48)) else none)) (some 0)

/-- Python `int(s)` on the inputs the pipeline feeds it: an optional sign
followed by decimal digits; anything else raises `ValueError` (`none`). -/
def pyInt (s : String) : Option Int :=
  match s.data with
  | '-' :: ds => (digitsToNat ds).map (fun n => -(n : Int))
  | ds => (digitsToNat ds).map (fun n => (n : Int))

/-- Row handling of `NamesDataPipeline.extract_and_load` for one national
file, mirroring the comprehension
`[(name, gender, int(count), year) for name, gender, count, *_ in reader if len([name, gender, count]) == 3]`:
unpacking a row with fewer than three columns raises `ValueError` (modelled
as `Except.error`, aborting the file and the pipeline); rows with three or
more columns bind the first three and fall through the guard, which compares
the length of the freshly built three-element list and is therefore always
true; `int(count)` raises on a non-numeric field. -/
def loadNationalRows (year : Int) : List (List String) → Except String (List NationalRow)
  | [] => .ok []
  | row :: rest =>
    match row with
    | name :: gender :: count :: _ =>
      if ([name, gender, count].length == 3) then
        match pyInt count with
        | some c => (loadNationalRows year rest).map (fun rs => ⟨name, gender, c, year⟩ :: rs)
        | none => .error "ValueError: invalid literal for int()"
      else
        loadNationalRows year rest
    | _ => .error "ValueError: not enough values to unpack"

/-- Row handling of `NamesDataPipeline.extract_and_load_states` for one state
file: rows are kept only when `len(row) == 5` (any other width is silently
skipped), then destructured as `(state, gender, year, name, count)` and
appended as `(state, name, gender, int(count), int(year))`. -/
def loadStateRows : List (List String) → Except String (List StateRow)
  | [] => .ok []
  | row :: rest =>
    if row.length == 5 then
      match row with
      | [state, gender, year, name, count] =>
        match pyInt count, pyInt year with
        | some c, some y => (loadStateRows rest).map (fun rs => ⟨state, name, gender, c, y⟩ :: rs)
        | _, _ => .error "ValueError: invalid literal for int()"
      | _ => loadStateRows rest
    else
      loadStateRows rest

/-! ## Batch insertion and commit granularity

Both engines' `insert_names_batch` / `insert_state_names_batch` issue their
bulk statements and then call `commit()` exactly once, at the end of the
method.  SQLite's `executemany` is one statement execution; Postgres's
`execute_values(..., page_size=5000)` sends the rows in pages of 5000 —
within the same open transaction.  The model makes the statement/commit
sequencing explicit so commit granularity can be reasoned about: executed
statements accumulate in the transaction's pending buffer and only `commit`
makes them durable. -/

/-- One step of a batch-insert call: executing a bulk INSERT for some rows,
or committing the open transaction. -/
inductive TxStep (α : Type) where
  | exec (rows : List α)
  | commit
deriving DecidableEq, Repr

/-- Durable (committed) table contents and the open transaction's pending rows. -/
structure TxState (α : Type) where
  durable : List α
  pending : List α
deriving DecidableEq, Repr

/-- Effect of one step: an INSERT appends to the pending buffer; `commit`
makes the pending rows durable. -/
def runStep : TxState α → TxStep α → TxState α
  | s, .exec rows => ⟨s.durable, s.pending ++ rows⟩
  | s, .commit => ⟨s.durable ++ s.pending, []⟩

/-- Run a sequence of steps; a failure after `k` steps is modelled by running
only the first `k` steps (the open transaction's pending rows are then lost). -/
def runSteps (s : TxState α) (steps : List (TxStep α)) : TxState α :=
  steps.foldl runStep s

/-- Pages of 5000 rows, as `psycopg2.extras.execute_values(..., page_size=5000)` sends them. -/
def chunks5000 : List α → List (List α)
  | [] => []
  | a :: rest => (a :: rest).take 5000 :: chunks5000 ((a :: rest).drop 5000)
termination_by l => l.length
decreasing_by simp [List.length_drop]; omega

/-- PostgresBackend.insert_names_batch / insert_state_names_batch: all pages
of the batch are executed, then a single `commit()`. -/
def pgBatchSteps (records : List α) : List (TxStep α) :=
  (chunks5000 records).map .exec ++ [.commit]

/-- SQLiteBackend.insert_names_batch / insert_state_names_batch:
one `executemany` over the whole batch, then a single `commit()`. -/
def sqliteBatchSteps (records : List α) : List (TxStep α) :=
  [.exec records, .commit]

/-! ## Helper lemmas -/

theorem sum_split {α : Type} (p : α → Bool) (val : α → Int) (l : List α) :
    ((l.filter p).map val).sum + ((l.filter (fun a => !(p a))).map val).sum = (l.map val).sum := by
  induction l with
  | nil => simp
  | cons a l ih =>
    cases hpa : p a with
    | true => simp [List.filter_cons, hpa]; omega
    | false => simp [List.filter_cons, hpa]; omega

theorem sum_over_groups {α κ : Type} [DecidableEq κ] (key : α → κ) (val : α → Int) :
    ∀ (ks : List κ) (rows : List α), ks.Nodup → (∀ r ∈ rows, key r ∈ ks) →
      (ks.map (fun k => ((rows.filter (fun r => key r == k)).map val).sum)).sum = (rows.map val).sum := by
  intro ks
  induction ks with
  | nil =>
    intro rows _ hcov
    have : rows = [] := by
      cases rows with
      | nil => rfl
      | cons r rest => exact absurd (hcov r (by simp)) (by simp)
    simp [this]
  | cons k ks ih =>
    intro rows hnd hcov
    have hk : k ∉ ks := (List.nodup_cons.mp hnd).1
    have hnd' : ks.Nodup := (List.nodup_cons.mp hnd).2
    set rows' := rows.filter (fun r => !(key r == k)) with hrows'
    have hcov' : ∀ r ∈ rows', key r ∈ ks := by
      intro r hr
      have hr' := List.mem_filter.mp hr
      rcases List.mem_cons.mp (hcov r hr'.1) with h | h
      · exfalso
        have h2 := hr'.2
        simp [h] at h2
      · exact h
    have hsame : ∀ k' ∈ ks, rows.filter (fun r => key r == k') = rows'.filter (fun r => key r == k') := by
      intro k' hk'
      rw [hrows', List.filter_filter]
      apply List.filter_congr
      intro r _
      by_cases h : key r = k'
      · have hkk : k' ≠ k := fun hc => hk (hc ▸ hk')
        have hne : (key r == k) = false := by simp [h, hkk]
        simp [h, hne, hkk]
      · simp [h]
    have hmap : (ks.map (fun k' => ((rows.filter (fun r => key r == k')).map val).sum)) =
        (ks.map (fun k' => ((rows'.filter (fun r => key r == k')).map val).sum)) := by
      apply List.map_congr_left
      intro k' hk'
      rw [hsame k' hk']
    simp only [List.map_cons, List.sum_cons, hmap, ih rows' hnd' hcov']
    rw [hrows']
    exact sum_split (fun r => key r == k) val rows

theorem findq_congr {α : Type} {p q : α → Bool} :
    ∀ {l : List α}, (∀ x ∈ l, p x = q x) → l.find? p = l.find? q := by
  intro l
  induction l with
  | nil => intro _; rfl
  | cons a l ih =>
    intro h
    have ha := h a (by simp)
    by_cases hp : p a = true
    · rw [List.find?_cons_of_pos _ hp, List.find?_cons_of_pos _ (ha ▸ hp)]
    · have hp' : p a = false := by simpa using hp
      rw [List.find?_cons_of_neg _ (by simp [hp']), List.find?_cons_of_neg _ (by simp [← ha, hp'])]
      exact ih (fun x hx => h x (by simp [hx]))

theorem pairwise_enumFrom {α : Type} {R : α → α → Prop} :
    ∀ {l : List α} (k : Nat), l.Pairwise R → (l.enumFrom k).Pairwise (fun p q => R p.2 q.2) := by
  intro l
  induction l with
  | nil => intro k _; simp
  | cons a l ih =>
    intro k h
    rcases List.pairwise_cons.mp h with ⟨ha, hl⟩
    refine List.pairwise_cons.mpr ⟨?_, ih (k + 1) hl⟩
    intro q hq
    have : q.2 ∈ l := by
      have := List.enumFrom_map_snd (k + 1) l
      exact this ▸ List.mem_map_of_mem Prod.snd hq
    exact ha q.2 this

theorem pairwise_enum {α : Type} {R : α → α → Prop} {l : List α} (h : l.Pairwise R) :
    l.enum.Pairwise (fun p q => R p.2 q.2) :=
  pairwise_enumFrom 0 h

theorem snd_mem_of_mem_enum {α : Type} {p : Nat × α} {l : List α} (h : p ∈ l.enum) : p.2 ∈ l := by
  have := List.enum_map_snd l
  exact this ▸ List.mem_map_of_mem Prod.snd h

theorem rangeq_take : ∀ (n s k : Nat), (List.range' s n).take k = List.range' s (min n k) := by
  intro n
  induction n with
  | zero => intro s k; simp
  | succ n ih =>
    intro s k
    cases k with
    | zero => simp
    | succ k =>
      rw [List.range'_succ, List.take_succ_cons, ih (s + 1) k]
      rw [show min (n + 1) (k + 1) = min n k + 1 by omega, List.range'_succ]

theorem foldl_max_spec (l : List Int) (x : Int) :
    x ≤ l.foldl max x ∧ (∀ y ∈ l, y ≤ l.foldl max x) ∧ (l.foldl max x = x ∨ l.foldl max x ∈ l) := by
  induction l generalizing x with
  | nil => simp
  | cons a l ih =>
    rcases ih (max x a) with ⟨h1, h2, h3⟩
    rw [List.foldl_cons]
    refine ⟨le_trans (le_max_left x a) h1, ?_, ?_⟩
    · intro y hy
      rcases List.mem_cons.mp hy with hya | hy
      · rw [hya]; exact le_trans (le_max_right x a) h1
      · exact h2 y hy
    · rcases h3 with h | h
      · rcases max_choice x a with hc | hc
        · left; rw [h, hc]
        · right; rw [h, hc]; exact List.mem_cons_self a l
      · right; exact List.mem_cons_of_mem a h

theorem foldl_min_spec (l : List Int) (x : Int) :
    l.foldl min x ≤ x ∧ (∀ y ∈ l, l.foldl min x ≤ y) ∧ (l.foldl min x = x ∨ l.foldl min x ∈ l) := by
  induction l generalizing x with
  | nil => simp
  | cons a l ih =>
    rcases ih (min x a) with ⟨h1, h2, h3⟩
    rw [List.foldl_cons]
    refine ⟨le_trans h1 (min_le_left x a), ?_, ?_⟩
    · intro y hy
      rcases List.mem_cons.mp hy with hya | hy
      · rw [hya]; exact le_trans h1 (min_le_right x a)
      · exact h2 y hy
    · rcases h3 with h | h
      · rcases min_choice x a with hc | hc
        · left; rw [h, hc]
        · right; rw [h, hc]; exact List.mem_cons_self a l
      · right; exact List.mem_cons_of_mem a h

theorem insertionSort_head_spec (rows : List NationalRow) (d : NationalRow) (hne : rows ≠ []) :
    (List.insertionSort natRowGe rows).headD d ∈ rows ∧
      ∀ r ∈ rows, r.count ≤ ((List.insertionSort natRowGe rows).headD d).count := by
  have hperm := List.perm_insertionSort natRowGe rows
  have hsorted := List.sorted_insertionSort natRowGe rows
  cases hs : List.insertionSort natRowGe rows with
  | nil =>
    exfalso
    apply hne
    have hlen := hperm.length_eq
    rw [hs] at hlen
    exact List.length_eq_zero.mp hlen.symm
  | cons h0 t =>
    rw [hs] at hperm hsorted
    refine ⟨hperm.subset (List.mem_cons_self h0 t), ?_⟩
    intro r hr
    rcases List.mem_cons.mp (hperm.mem_iff.mpr hr) with rfl | hrt
    · exact le_refl _
    · exact List.rel_of_sorted_cons hsorted r hrt

theorem statsQuery_none_iff (key : String) (rows : List NationalRow) :
    statsQuery key rows = none ↔ rows = [] := by
  cases rows <;> simp [statsQuery]

theorem statsQuery_some_spec (key : String) (rows : List NationalRow) (s : NameStats)
    (h : statsQuery key rows = some s) :
    s.total_count = (rows.map (·.count)).sum ∧
    (∀ r ∈ rows, r.count ≤ s.peak_count) ∧
    (∃ r ∈ rows, r.year = s.peak_year ∧ r.count = s.peak_count) ∧
    (∀ r ∈ rows, s.first_year ≤ r.year ∧ r.year ≤ s.last_year) ∧
    (∃ r ∈ rows, r.year = s.first_year) ∧
    (∃ r ∈ rows, r.year = s.last_year) ∧
    s.gender_breakdown = genderSums rows := by
  cases rows with
  | nil => simp [statsQuery] at h
  | cons r0 rest =>
    rw [statsQuery] at h
    have hs := (Option.some.inj h).symm
    subst hs
    have hmax : rest.foldl (fun m r => max m r.count) r0.count = (rest.map (·.count)).foldl max r0.count := by
      rw [List.foldl_map]
    have hmaxy : rest.foldl (fun m r => max m r.year) r0.year = (rest.map (·.year)).foldl max r0.year := by
      rw [List.foldl_map]
    have hminy : rest.foldl (fun m r => min m r.year) r0.year = (rest.map (·.year)).foldl min r0.year := by
      rw [List.foldl_map]
    rcases foldl_max_spec (rest.map (·.count)) r0.count with ⟨hm1, hm2, hm3⟩
    rcases foldl_max_spec (rest.map (·.year)) r0.year with ⟨hy1, hy2, hy3⟩
    rcases foldl_min_spec (rest.map (·.year)) r0.year with ⟨hn1, hn2, hn3⟩
    rcases insertionSort_head_spec (r0 :: rest) r0 (by simp) with ⟨hh1, hh2⟩
    refine ⟨rfl, ?_, ?_, ?_, ?_, ?_, rfl⟩
    · intro r hr
      simp only [hmax]
      rcases List.mem_cons.mp hr with hr0 | hr
      · rw [hr0]; exact hm1
      · exact hm2 r.count (List.mem_map_of_mem _ hr)
    · refine ⟨(List.insertionSort natRowGe (r0 :: rest)).headD r0, hh1, rfl, ?_⟩
      simp only [hmax]
      apply le_antisymm
      · rcases List.mem_cons.mp hh1 with he | he
        · rw [he]; exact hm1
        · exact hm2 _ (List.mem_map_of_mem _ he)
      · rcases hm3 with hc | hc
        · rw [hc]; exact hh2 r0 (List.mem_cons_self r0 rest)
        · rcases List.mem_map.mp hc with ⟨r, hr, hrc⟩
          rw [← hrc]; exact hh2 r (List.mem_cons_of_mem r0 hr)
    · intro r hr
      simp only [hmaxy, hminy]
      rcases List.mem_cons.mp hr with hr0 | hr
      · rw [hr0]; exact ⟨hn1, hy1⟩
      · exact ⟨hn2 r.year (List.mem_map_of_mem _ hr), hy2 r.year (List.mem_map_of_mem _ hr)⟩
    · simp only [hminy]
      rcases hn3 with hc | hc
      · exact ⟨r0, List.mem_cons_self r0 rest, hc.symm⟩
      · rcases List.mem_map.mp hc with ⟨r, hr, hrc⟩
        exact ⟨r, List.mem_cons_of_mem r0 hr, hrc⟩
    · simp only [hmaxy]
      rcases hy3 with hc | hc
      · exact ⟨r0, List.mem_cons_self r0 rest, hc.symm⟩
      · rcases List.mem_map.mp hc with ⟨r, hr, hrc⟩
        exact ⟨r, List.mem_cons_of_mem r0 hr, hrc⟩

theorem genderSums_total (rows : List NationalRow) :
    ∀ b ∈ genderSums rows,
      b.total_count = ((rows.filter (fun r => r.gender == b.gender)).map (·.count)).sum := by
  intro b hb
  rcases List.mem_map.mp hb with ⟨g, _, rfl⟩
  rfl

theorem genderSums_genders (rows : List NationalRow) :
    (genderSums rows).map (·.gender) = (rows.map (·.gender)).dedup := by
  unfold genderSums
  rw [List.map_map]
  exact List.map_id' _

theorem rankAll_length (rows : List NationalRow) : (rankAll rows).length = rows.length := by
  simp [rankAll, List.enum_length, (List.perm_insertionSort natRowGe rows).length_eq]

theorem rankAll_map_rank (rows : List NationalRow) :
    (rankAll rows).map (·.rank) = List.range' 1 rows.length := by
  unfold rankAll
  rw [List.map_map]
  have hfun : ((fun e : RankedName => e.rank) ∘
      fun p : Nat × NationalRow => (⟨p.2.name, p.2.gender, p.2.count, p.1 + 1⟩ : RankedName)) =
      (fun i => i + 1) ∘ Prod.fst := rfl
  rw [hfun, ← List.map_map, List.enum_map_fst, List.range'_eq_map_range]
  rw [(List.perm_insertionSort natRowGe rows).length_eq]
  exact List.map_congr_left (fun i _ => Nat.add_comm i 1)

theorem rankAll_counts_sorted (rows : List NationalRow) :
    (rankAll rows).Pairwise (fun a b => b.count ≤ a.count) := by
  unfold rankAll
  rw [List.pairwise_map]
  exact pairwise_enum (List.sorted_insertionSort natRowGe rows)

theorem anySuffix_of_nil {f : List Char → Bool} (h : f [] = true) :
    ∀ s, anySuffix f s = true := by
  intro s
  induction s with
  | nil => simpa [anySuffix] using h
  | cons c cs ih => simp [anySuffix, ih]

theorem likeMatch_noWild (p : List Char) (hp : ∀ c ∈ p, c ≠ '%' ∧ c ≠ '_') :
    ∀ s, likeMatch (p ++ ['%']) s = p.isPrefixOf s := by
  induction p with
  | nil =>
    intro s
    have h1 : likeMatch ([] ++ ['%']) s = anySuffix (likeMatch []) s := by
      simp [likeMatch]
    rw [h1, anySuffix_of_nil (by simp [likeMatch])]
    simp [List.isPrefixOf]
  | cons a p ih =>
    intro s
    have ha := hp a (by simp)
    have hp' : ∀ c ∈ p, c ≠ '%' ∧ c ≠ '_' := fun c hc => hp c (by simp [hc])
    cases s with
    | nil => simp [likeMatch, ha.1, List.isPrefixOf]
    | cons c cs =>
      have h1 : likeMatch ((a :: p) ++ ['%']) (c :: cs) =
          ((if a = '_' then true else a == c) && likeMatch (p ++ ['%']) cs) := by
        simp [likeMatch, ha.1]
      rw [h1, ih hp' cs]
      simp [List.isPrefixOf, ha.2]

theorem runSteps_execs (chunkss : List (List α)) :
    ∀ (pre p : List α), runSteps ⟨pre, p⟩ (chunkss.map TxStep.exec) = ⟨pre, p ++ chunkss.flatten⟩ := by
  induction chunkss with
  | nil => intro pre p; simp [runSteps]
  | cons c cs ih =>
    intro pre p
    have h1 : runSteps ⟨pre, p⟩ ((c :: cs).map TxStep.exec) = runSteps ⟨pre, p ++ c⟩ (cs.map TxStep.exec) := by
      simp [runSteps, runStep]
    rw [h1, ih pre (p ++ c)]
    simp [List.append_assoc]

theorem chunks5000_flatten (l : List α) : (chunks5000 l).flatten = l := by
  induction l using chunks5000.induct with
  | case1 => simp [chunks5000]
  | case2 a rest ih =>
    rw [chunks5000, List.flatten_cons, ih, List.take_append_drop]

theorem runSteps_take_pg (pre rec : List α) (k : Nat) (hk : k < (pgBatchSteps rec).length) :
    (runSteps ⟨pre, []⟩ ((pgBatchSteps rec).take k)).durable = pre := by
  have hk' : k ≤ ((chunks5000 rec).map (TxStep.exec (α := α))).length := by
    have : (pgBatchSteps rec).length = ((chunks5000 rec).map (TxStep.exec (α := α))).length + 1 := by
      simp [pgBatchSteps]
    omega
  rw [pgBatchSteps, List.take_append_of_le_length hk', ← List.map_take, runSteps_execs]

theorem runSteps_full_pg (pre rec : List α) :
    runSteps ⟨pre, []⟩ (pgBatchSteps rec) = ⟨pre ++ rec, []⟩ := by
  rw [pgBatchSteps, runSteps, List.foldl_append]
  have h := runSteps_execs (chunks5000 rec) pre []
  rw [runSteps] at h
  rw [h]
  simp [runStep, chunks5000_flatten]

theorem runSteps_take_sqlite (pre rec : List α) (k : Nat) (hk : k < (sqliteBatchSteps rec).length) :
    (runSteps ⟨pre, []⟩ ((sqliteBatchSteps rec).take k)).durable = pre := by
  have hk2 : k < 2 := by simpa [sqliteBatchSteps] using hk
  match k, hk2 with
  | 0, _ => simp [sqliteBatchSteps, runSteps]
  | 1, _ => simp [sqliteBatchSteps, runSteps, runStep]

theorem runSteps_full_sqlite (pre rec : List α) :
    runSteps ⟨pre, []⟩ (sqliteBatchSteps rec) = ⟨pre ++ rec, []⟩ := by
  simp [sqliteBatchSteps, runSteps, runStep]

theorem lower_beq_agree {r n : String} (h : lowerStr r = lowerStr n ↔ r = n) :
    (lowerStr r == lowerStr n) = (r == n) := by
  by_cases hx : r = n
  · simp [hx, h.mpr hx]
  · have hy : ¬ lowerStr r = lowerStr n := fun hc => hx (h.mp hc)
    simp [hx, hy]

theorem filter_nameEq_congr (rows : List NationalRow) (n : String)
    (hnat : ∀ r ∈ rows, lowerStr r.name = lowerStr n ↔ r.name = n) :
    rows.filter (pgNameEq n) = rows.filter (sqliteNameEq n) :=
  List.filter_congr (fun r hr => lower_beq_agree (hnat r hr))

theorem filter_nameGender_congr (rows : List NationalRow) (n g : String)
    (hnat : ∀ r ∈ rows, lowerStr r.name = lowerStr n ↔ r.name = n) :
    rows.filter (fun r => pgNameEq n r && r.gender == g) =
      rows.filter (fun r => sqliteNameEq n r && r.gender == g) :=
  List.filter_congr (fun r hr => by rw [show pgNameEq n r = sqliteNameEq n r from lower_beq_agree (hnat r hr)])

/-! ## Claim theorems -/

/-- C2 (code behaviour at the failing inputs): in the national load a
2-column line makes the tuple unpacking raise `ValueError` — the file and the
pipeline abort instead of dropping the line — while a 4-column line passes
the always-true guard `len([name, gender, count]) == 3` and is inserted with
its extra columns ignored instead of being dropped.  The state load's
`len(row) == 5` check does behave as specified, silently dropping the
malformed line. -/
theorem claim_C2_code_behaviour :
    loadNationalRows 1950 [["Mary", "F", "10"], ["Oops", "2"]] =
      .error "ValueError: not enough values to unpack" ∧
    loadNationalRows 1950 [["Ann", "F", "5", "extra"]] = .ok [⟨"Ann", "F", 5, 1950⟩] ∧
    loadStateRows [["CA", "F", "1950", "Mary", "400"], ["Oops", "2"]] =
      .ok [⟨"CA", "Mary", "F", 400, 1950⟩] :=
  ⟨rfl, rfl, rfl⟩

/-- C3 counterexample: after ingesting the row `("Mary", "F", 100, 1950)`,
looking up `"mary"` returns no rows in SQLite (whose `name = ?` compares
with the BINARY collation) but returns the row in Postgres (which
lower-cases both sides), so `get_name_records` is not an exact
case-insensitive match in both engines. -/
theorem claim_C3_counterexample :
    SQLiteBackend.get_name_records ⟨[⟨"Mary", "F", 100, 1950⟩], []⟩ "mary" = [] ∧
    PostgresBackend.get_name_records ⟨[⟨"Mary", "F", 100, 1950⟩], []⟩ "mary" =
      [⟨"Mary", "F", 100, 1950⟩] :=
  ⟨by decide, by decide⟩

/-- C3 amended: `get_name_records` returns exactly the stored national rows
matching the input name, where Postgres matches after lower-casing both
sides (the case-insensitive behaviour the claim describes) but SQLite
matches by exact string equality (case-sensitive). -/
theorem claim_C3_amended (db : DB) (n : String) (r : NationalRow) :
    (r ∈ PostgresBackend.get_name_records db n ↔ r ∈ db.national ∧ lowerStr r.name = lowerStr n) ∧
    (r ∈ SQLiteBackend.get_name_records db n ↔ r ∈ db.national ∧ r.name = n) := by
  constructor
  · simp [PostgresBackend.get_name_records, pgNameEq, List.mem_filter]
  · simp [SQLiteBackend.get_name_records, sqliteNameEq, List.mem_filter]

/-- C6 counterexample: a national batch of two rows forms a single page;
failing after that page was executed but before the method's final `commit()`
leaves the store exactly as it was — not, as the claim states, containing
the rows of the executed chunk. -/
theorem claim_C6_counterexample :
    (runSteps ⟨[(⟨"Old", "F", 1, 1940⟩ : NationalRow)], []⟩
      ((pgBatchSteps [⟨"Mary", "F", 100, 1950⟩, ⟨"John", "M", 90, 1950⟩]).take 1)).durable =
      [⟨"Old", "F", 1, 1940⟩] ∧
    [(⟨"Old", "F", 1, 1940⟩ : NationalRow)] ≠
      [⟨"Old", "F", 1, 1940⟩, ⟨"Mary", "F", 100, 1950⟩, ⟨"John", "M", 90, 1950⟩] := by
  constructor
  · apply runSteps_take_pg
    rw [pgBatchSteps, chunks5000]
    simp
  · decide

/-- C6 amended: both engines' batch-insert methods execute all their internal
chunks inside one open transaction and commit exactly once, at the end of the
call: a failure at any point before that final commit leaves none of the
batch's rows in the store, and a completed call appends exactly the batch.
Partial loads can therefore arise only between whole batch calls (one per
file), never inside one. -/
theorem claim_C6_amended {α : Type} (pre records : List α) (k : Nat) :
    (k < (pgBatchSteps records).length →
      (runSteps ⟨pre, []⟩ ((pgBatchSteps records).take k)).durable = pre) ∧
    (k < (sqliteBatchSteps records).length →
      (runSteps ⟨pre, []⟩ ((sqliteBatchSteps records).take k)).durable = pre) ∧
    runSteps ⟨pre, []⟩ (pgBatchSteps records) = ⟨pre ++ records, []⟩ ∧
    runSteps ⟨pre, []⟩ (sqliteBatchSteps records) = ⟨pre ++ records, []⟩ :=
  ⟨runSteps_take_pg pre records k, runSteps_take_sqlite pre records k,
    runSteps_full_pg pre records, runSteps_full_sqlite pre records⟩

/-- C6 witness: the amended theorem applied to a concrete one-row batch with
a failure after the insert statement but before the commit, in both engines. -/
theorem claim_C6_witness :
    (runSteps ⟨([] : List NationalRow), []⟩
      ((pgBatchSteps [⟨"Mary", "F", 100, 1950⟩]).take 1)).durable = [] ∧
    (runSteps ⟨([] : List NationalRow), []⟩
      ((sqliteBatchSteps [⟨"Mary", "F", 100, 1950⟩]).take 1)).durable = [] :=
  ⟨(claim_C6_amended ([] : List NationalRow) [(⟨"Mary", "F", 100, 1950⟩ : NationalRow)] 1).1
      (by rw [pgBatchSteps, chunks5000]; simp),
    (claim_C6_amended ([] : List NationalRow) [(⟨"Mary", "F", 100, 1950⟩ : NationalRow)] 1).2.1 (by decide)⟩

/-- C10: filter arguments are selected by Python truthiness, not presence:
`get_unique_name_count 0` ignores the year filter and counts distinct names
over all years, and the empty-string gender to `get_name_trends`,
`get_decade_trends` and `get_top_names` yields the unfiltered both-genders
result — in both engines. -/
theorem claim_C10 (db : DB) (n : String) (y : Int) (K : Nat) :
    SQLiteBackend.get_unique_name_count db (some 0) = SQLiteBackend.get_unique_name_count db none ∧
    PostgresBackend.get_unique_name_count db (some 0) = PostgresBackend.get_unique_name_count db none ∧
    SQLiteBackend.get_unique_name_count db (some 0) = (db.national.map (·.name)).dedup.length ∧
    SQLiteBackend.get_name_trends db n (some "") = SQLiteBackend.get_name_trends db n none ∧
    PostgresBackend.get_name_trends db n (some "") = PostgresBackend.get_name_trends db n none ∧
    SQLiteBackend.get_decade_trends db n (some "") = SQLiteBackend.get_decade_trends db n none ∧
    PostgresBackend.get_decade_trends db n (some "") = PostgresBackend.get_decade_trends db n none ∧
    SQLiteBackend.get_top_names db y (some "") K = SQLiteBackend.get_top_names db y none K ∧
    PostgresBackend.get_top_names db y (some "") K = PostgresBackend.get_top_names db y none K :=
  ⟨rfl, rfl, rfl, rfl, rfl, rfl, rfl, rfl, rfl⟩

/-- C1 counterexample: ingest the single national record `("Mary", "F", 100, 1950)`
(the state shown is the durable store after a completed `insert_names_batch`
call on an empty store, so it is reachable by ingestion in both engines);
the contract query `get_name_records "mary"` then returns `[]` from SQLite
but the full row from Postgres, so the two engines do not return identical
results, and SQLite does not behave as if names were lower-cased first. -/
theorem claim_C1_counterexample :
    SQLiteBackend.get_name_records
        ⟨(runSteps (⟨[], []⟩ : TxState NationalRow)
          (sqliteBatchSteps [⟨"Mary", "F", 100, 1950⟩])).durable, []⟩ "mary" ≠
      PostgresBackend.get_name_records
        ⟨(runSteps (⟨[], []⟩ : TxState NationalRow)
          (sqliteBatchSteps [⟨"Mary", "F", 100, 1950⟩])).durable, []⟩ "mary" ∧
    SQLiteBackend.get_name_records
        ⟨(runSteps (⟨[], []⟩ : TxState NationalRow)
          (sqliteBatchSteps [⟨"Mary", "F", 100, 1950⟩])).durable, []⟩ "mary" = [] ∧
    PostgresBackend.get_name_records
        ⟨(runSteps (⟨[], []⟩ : TxState NationalRow)
          (sqliteBatchSteps [⟨"Mary", "F", 100, 1950⟩])).durable, []⟩ "mary" =
      [⟨"Mary", "F", 100, 1950⟩] :=
  ⟨by decide, by decide, by decide⟩

/-- C1 amended: the two engines agree on every contract query except for how
the name argument is matched: queries that do not filter by name
(`get_top_names`, `search_names`, `get_unique_name_count`) coincide
unconditionally, and the name-filtering queries coincide exactly when
case-insensitive equality with the query name agrees with exact equality on
every stored row (e.g. whenever the query name is given in its stored
spelling).  In general Postgres lower-cases both sides of every name
comparison while SQLite compares names exactly, so the engines disagree on
stores holding a name that differs from the query only by case. -/
theorem claim_C1_amended (db : DB) (n : String)
    (hnat : ∀ r ∈ db.national, lowerStr r.name = lowerStr n ↔ r.name = n)
    (hst : ∀ r ∈ db.byState, lowerStr r.name = lowerStr n ↔ r.name = n)
    (g : Option String) (y : Int) (K : Nat) (gr : String) (st : Option String)
    (pfx : String) (yOpt : Option Int) :
    PostgresBackend.get_name_records db n = SQLiteBackend.get_name_records db n ∧
    PostgresBackend.get_name_trends db n g = SQLiteBackend.get_name_trends db n g ∧
    PostgresBackend.get_name_stats db n = SQLiteBackend.get_name_stats db n ∧
    PostgresBackend.get_gender_breakdown db n = SQLiteBackend.get_gender_breakdown db n ∧
    PostgresBackend.get_top_names db y g K = SQLiteBackend.get_top_names db y g K ∧
    PostgresBackend.get_name_rank db n y gr = SQLiteBackend.get_name_rank db n y gr ∧
    PostgresBackend.get_decade_trends db n g = SQLiteBackend.get_decade_trends db n g ∧
    PostgresBackend.get_name_by_state db n st = SQLiteBackend.get_name_by_state db n st ∧
    PostgresBackend.get_state_distribution db n = SQLiteBackend.get_state_distribution db n ∧
    PostgresBackend.search_names db pfx K = SQLiteBackend.search_names db pfx K ∧
    PostgresBackend.get_unique_name_count db yOpt = SQLiteBackend.get_unique_name_count db yOpt := by
  refine ⟨?_, ?_, ?_, ?_, rfl, ?_, ?_, ?_, ?_, rfl, rfl⟩
  · exact filter_nameEq_congr db.national n hnat
  · unfold PostgresBackend.get_name_trends SQLiteBackend.get_name_trends
    cases hg : pyTruthy g
    · simp only [hg, if_neg, Bool.false_eq_true, not_false_iff]
      exact congrArg yearSums (filter_nameEq_congr db.national n hnat)
    · simp only [hg, if_pos]
      exact congrArg yearSums (filter_nameGender_congr db.national n (g.getD "") hnat)
  · exact congrArg (statsQuery n) (filter_nameEq_congr db.national n hnat)
  · exact congrArg genderSums (filter_nameEq_congr db.national n hnat)
  · unfold PostgresBackend.get_name_rank SQLiteBackend.get_name_rank
    apply congrArg (Option.map _)
    apply findq_congr
    intro p hp
    have hmem : p.2 ∈ db.national :=
      (List.mem_filter.mp ((List.mem_insertionSort natRowGe).mp (snd_mem_of_mem_enum hp))).1
    exact lower_beq_agree (hnat p.2 hmem)
  · unfold PostgresBackend.get_decade_trends SQLiteBackend.get_decade_trends
    cases hg : pyTruthy g
    · simp only [hg, if_neg, Bool.false_eq_true, not_false_iff]
      exact congrArg decadeSums (filter_nameEq_congr db.national n hnat)
    · simp only [hg, if_pos]
      exact congrArg decadeSums (filter_nameGender_congr db.national n (g.getD "") hnat)
  · unfold PostgresBackend.get_name_by_state SQLiteBackend.get_name_by_state
    cases hs : pyTruthy st
    · simp only [hs, if_neg, Bool.false_eq_true, not_false_iff]
      exact List.filter_congr (fun r hr => lower_beq_agree (hst r hr))
    · simp only [hs, if_pos]
      exact List.filter_congr (fun r hr => by
        rw [show (lowerStr r.name == lowerStr n) = (r.name == n) from lower_beq_agree (hst r hr)])
  · exact congrArg stateSums (List.filter_congr (fun r hr => lower_beq_agree (hst r hr)))

/-- C1 witness: the amended equivalence applied to a concrete ingested store
queried with the stored spelling, where exact and case-insensitive matching
agree, so both engines return the same rows. -/
theorem claim_C1_witness :
    PostgresBackend.get_name_records
        ⟨[⟨"Mary", "F", 100, 1950⟩], [⟨"CA", "Mary", "F", 40, 1950⟩]⟩ "Mary" =
      SQLiteBackend.get_name_records
        ⟨[⟨"Mary", "F", 100, 1950⟩], [⟨"CA", "Mary", "F", 40, 1950⟩]⟩ "Mary" ∧
    PostgresBackend.get_state_distribution
        ⟨[⟨"Mary", "F", 100, 1950⟩], [⟨"CA", "Mary", "F", 40, 1950⟩]⟩ "Mary" =
      SQLiteBackend.get_state_distribution
        ⟨[⟨"Mary", "F", 100, 1950⟩], [⟨"CA", "Mary", "F", 40, 1950⟩]⟩ "Mary" :=
  ⟨(claim_C1_amended ⟨[⟨"Mary", "F", 100, 1950⟩], [⟨"CA", "Mary", "F", 40, 1950⟩]⟩ "Mary"
      (by decide) (by decide) none 1950 10 "F" none "M" none).1,
    (claim_C1_amended ⟨[⟨"Mary", "F", 100, 1950⟩], [⟨"CA", "Mary", "F", 40, 1950⟩]⟩ "Mary"
      (by decide) (by decide) none 1950 10 "F" none "M" none).2.2.2.2.2.2.2.2.1⟩

theorem topNamesQuery_spec (rows : List NationalRow) (K : Nat) :
    ((rankAll rows).take K).length ≤ K ∧
    ((rankAll rows).take K).map (·.rank) = List.range' 1 ((rankAll rows).take K).length ∧
    ((rankAll rows).take K).Pairwise (fun a b => b.count ≤ a.count) := by
  refine ⟨List.length_take_le K _, ?_, ?_⟩
  · rw [List.map_take, rankAll_map_rank, rangeq_take, List.length_take, rankAll_length]
    congr 1
    omega
  · exact List.Pairwise.sublist (List.take_sublist K _) (rankAll_counts_sorted rows)

/-- C4 counterexample: with two rows tied at count 5 for (1950, F), the
ranking assigns ranks 1 and 2 but the counts are equal, so the result is not
strictly descending by count. -/
theorem claim_C4_counterexample :
    SQLiteBackend.get_top_names ⟨[⟨"Alice", "F", 5, 1950⟩, ⟨"Beth", "F", 5, 1950⟩], []⟩
        1950 (some "F") 10 = [⟨"Alice", "F", 5, 1⟩, ⟨"Beth", "F", 5, 2⟩] ∧
    ¬ (SQLiteBackend.get_top_names ⟨[⟨"Alice", "F", 5, 1950⟩, ⟨"Beth", "F", 5, 1950⟩], []⟩
        1950 (some "F") 10).Pairwise (fun a b => b.count < a.count) :=
  ⟨by decide, by decide⟩

/-- C4 amended: `get_top_names(y, g, K)` returns at most K entries whose
counts are non-increasing (descending with ties allowed — `ROW_NUMBER` still
gives tied rows distinct consecutive ranks), with the rank of entry i equal
to i + 1 (ranks are 1, 2, ... with no gaps); when gender is omitted the
single ranking is computed over the year's rows of both genders combined;
Postgres runs the identical query. -/
theorem claim_C4_amended (db : DB) (y : Int) (g : Option String) (K : Nat) :
    (SQLiteBackend.get_top_names db y g K).length ≤ K ∧
    (SQLiteBackend.get_top_names db y g K).map (·.rank) =
      List.range' 1 (SQLiteBackend.get_top_names db y g K).length ∧
    (SQLiteBackend.get_top_names db y g K).Pairwise (fun a b => b.count ≤ a.count) ∧
    SQLiteBackend.get_top_names db y none K =
      (rankAll (db.national.filter (fun r => r.year == y))).take K ∧
    PostgresBackend.get_top_names db y g K = SQLiteBackend.get_top_names db y g K := by
  have key : ∃ rows, SQLiteBackend.get_top_names db y g K = (rankAll rows).take K := by
    unfold SQLiteBackend.get_top_names
    cases hpg : pyTruthy g
    · simp only [hpg, Bool.false_eq_true, if_neg, not_false_iff]
      exact ⟨_, rfl⟩
    · simp only [hpg, if_pos]
      exact ⟨_, rfl⟩
  rcases key with ⟨rows, hkey⟩
  rw [hkey]
  refine ⟨(topNamesQuery_spec rows K).1, (topNamesQuery_spec rows K).2.1,
    (topNamesQuery_spec rows K).2.2, rfl, ?_⟩
  rw [← hkey]
  rfl

/-- C7 counterexample: with the store holding `("Bob", "M", 9, 2000)` and
`("Ann", "", 5, 2000)`, the (2000, gender "") partition has size 1 and
contains "Ann", and `get_name_rank("Ann", 2000, "")` = 1; but
`get_top_names(2000, "", 1)` drops the gender filter by truthiness and
returns only `("Bob", "M", 9, rank 1)`, so no rank is attached to "Ann"
there at all. -/
theorem claim_C7_counterexample :
    ((⟨[⟨"Bob", "M", 9, 2000⟩, ⟨"Ann", "", 5, 2000⟩], []⟩ : DB).national.filter
        (fun r => r.year == 2000 && r.gender == "")).length = 1 ∧
    SQLiteBackend.get_name_rank ⟨[⟨"Bob", "M", 9, 2000⟩, ⟨"Ann", "", 5, 2000⟩], []⟩
        "Ann" 2000 "" = some 1 ∧
    ((SQLiteBackend.get_top_names ⟨[⟨"Bob", "M", 9, 2000⟩, ⟨"Ann", "", 5, 2000⟩], []⟩
        2000 (some "") 1).find? (fun e => e.name == "Ann")).map (·.rank) = none :=
  ⟨by decide, by decide, by decide⟩

/-- C7 amended: for every non-empty gender g and K at least the partition
size, `get_name_rank(n, y, g)` equals the rank attached to the first entry
matching n in `get_top_names(y, g, K)` when such an entry exists, and is
`None` otherwise — each engine matching the outer name its own way (SQLite
exactly, Postgres lower-cased).  For g = "" the two queries disagree:
`get_top_names` drops the gender filter by truthiness while `get_name_rank`
keeps it. -/
theorem claim_C7_amended (db : DB) (n : String) (y : Int) (g : String) (K : Nat)
    (hg : g ≠ "")
    (hK : (db.national.filter (fun r => r.year == y && r.gender == g)).length ≤ K) :
    SQLiteBackend.get_name_rank db n y g =
      ((SQLiteBackend.get_top_names db y (some g) K).find? (fun e => e.name == n)).map (·.rank) ∧
    PostgresBackend.get_name_rank db n y g =
      ((PostgresBackend.get_top_names db y (some g) K).find?
        (fun e => lowerStr e.name == lowerStr n)).map (·.rank) := by
  have hpt : pyTruthy (some g) = true := by
    simp only [pyTruthy, Bool.not_eq_true']
    exact Bool.eq_false_iff.mpr (fun hc => hg ((String.isEmpty_iff g).mp hc))
  constructor
  · unfold SQLiteBackend.get_name_rank SQLiteBackend.get_top_names
    simp only [hpt, if_pos]
    rw [List.take_of_length_le (by rw [rankAll_length]; exact hK)]
    unfold rankAll
    rw [List.find?_map, Option.map_map]
    rfl
  · unfold PostgresBackend.get_name_rank PostgresBackend.get_top_names
    simp only [hpt, if_pos]
    rw [List.take_of_length_le (by rw [rankAll_length]; exact hK)]
    unfold rankAll
    rw [List.find?_map, Option.map_map]
    rfl

/-- C7 witness: the amended relation applied to the spec's 1950 scenario with
gender F and a limit exceeding the partition size. -/
theorem claim_C7_witness :
    SQLiteBackend.get_name_rank ⟨[⟨"Mary", "F", 1000, 1950⟩, ⟨"John", "M", 900, 1950⟩], []⟩
        "Mary" 1950 "F" =
      ((SQLiteBackend.get_top_names ⟨[⟨"Mary", "F", 1000, 1950⟩, ⟨"John", "M", 900, 1950⟩], []⟩
          1950 (some "F") 5).find? (fun e => e.name == "Mary")).map (·.rank) :=
  (claim_C7_amended ⟨[⟨"Mary", "F", 1000, 1950⟩, ⟨"John", "M", 900, 1950⟩], []⟩
      "Mary" 1950 "F" 5 (by decide) (by decide)).1

theorem ciLike_append_pct (pfx nm : String) :
    ciLike (pfx ++ "%") nm = likeMatch ((lowerStr pfx).data ++ ['%']) (lowerStr nm).data := by
  show likeMatch ((pfx ++ "%").data.map Char.toLower) (nm.data.map Char.toLower) = _
  rw [String.data_append, List.map_append]
  rfl

theorem nameSums_mem_spec (rows : List NationalRow) (e : NameSearchResult)
    (he : e ∈ nameSums rows) :
    (∃ r ∈ rows, r.name = e.name) ∧
    e.total_count = ((rows.filter (fun r => r.name == e.name)).map (·.count)).sum := by
  unfold nameSums at he
  have he2 := (List.mem_insertionSort searchGe).mp he
  rcases List.mem_map.mp he2 with ⟨n', hn', rfl⟩
  constructor
  · rcases List.mem_map.mp (List.mem_dedup.mp hn') with ⟨r, hr, hrn⟩
    exact ⟨r, hr, hrn⟩
  · rfl

/-- C8 counterexample: the `search_names` argument is concatenated into a
LIKE pattern with its wildcards still active: with only the row "Mary"
stored, the prefix "%" returns "Mary" (and so does "M_r"), although
lowercase "Mary" does not start with "%". -/
theorem claim_C8_counterexample :
    SQLiteBackend.search_names ⟨[⟨"Mary", "F", 100, 1950⟩], []⟩ "%" 10 = [⟨"Mary", 100⟩] ∧
    SQLiteBackend.search_names ⟨[⟨"Mary", "F", 100, 1950⟩], []⟩ "M_r" 10 = [⟨"Mary", 100⟩] ∧
    List.isPrefixOf (lowerStr "%").data (lowerStr "Mary").data = false :=
  ⟨by decide, by decide, by decide⟩

/-- C8 amended: `search_names(pfx, limit)` returns at most `limit` entries,
each a name whose lowercase form matches lowercase `pfx` interpreted as a
LIKE pattern followed by `%` (so `%` and `_` inside the argument act as
wildcards; when the lowered argument contains no wildcard characters this is
exactly the case-insensitive literal-prefix test the claim describes), with
`total_count` the sum of that name's counts over all years and genders,
ordered by `total_count` non-increasing (descending with ties allowed);
Postgres runs the equivalent query. -/
theorem claim_C8_amended (db : DB) (pfx : String) (K : Nat) :
    (SQLiteBackend.search_names db pfx K).length ≤ K ∧
    (SQLiteBackend.search_names db pfx K).Forall (fun e =>
      ciLike (pfx ++ "%") e.name = true ∧
      e.total_count = ((db.national.filter (fun r => r.name == e.name)).map (·.count)).sum) ∧
    (SQLiteBackend.search_names db pfx K).Pairwise (fun a b => b.total_count ≤ a.total_count) ∧
    ((∀ c ∈ (lowerStr pfx).data, c ≠ '%' ∧ c ≠ '_') →
      (SQLiteBackend.search_names db pfx K).Forall (fun e =>
        List.isPrefixOf (lowerStr pfx).data (lowerStr e.name).data = true)) ∧
    PostgresBackend.search_names db pfx K = SQLiteBackend.search_names db pfx K := by
  have hsub : ∀ e ∈ SQLiteBackend.search_names db pfx K,
      e ∈ nameSums (db.national.filter (fun r => ciLike (pfx ++ "%") r.name)) := by
    intro e he
    exact (List.take_sublist K _).subset he
  refine ⟨List.length_take_le K _, ?_, ?_, ?_, rfl⟩
  · rw [List.forall_iff_forall_mem]
    intro e he
    rcases nameSums_mem_spec _ e (hsub e he) with ⟨⟨r, hr, hrn⟩, htot⟩
    have hrlike := (List.mem_filter.mp hr).2
    have hlike : ciLike (pfx ++ "%") e.name = true := by rw [← hrn]; exact hrlike
    refine ⟨hlike, ?_⟩
    have hlists : (db.national.filter (fun r => ciLike (pfx ++ "%") r.name)).filter
        (fun r => r.name == e.name) = db.national.filter (fun r => r.name == e.name) := by
      rw [List.filter_filter]
      apply List.filter_congr
      intro x _
      by_cases hx : x.name = e.name
      · simp [hx, hlike]
      · simp [hx]
    rw [htot, hlists]
  · exact List.Pairwise.sublist (List.take_sublist K _)
      (List.sorted_insertionSort searchGe _)
  · intro hnowild
    rw [List.forall_iff_forall_mem]
    intro e he
    rcases nameSums_mem_spec _ e (hsub e he) with ⟨⟨r, hr, hrn⟩, _⟩
    have hrlike := (List.mem_filter.mp hr).2
    have hlike : ciLike (pfx ++ "%") e.name = true := by rw [← hrn]; exact hrlike
    rw [ciLike_append_pct] at hlike
    rw [← likeMatch_noWild (lowerStr pfx).data hnowild (lowerStr e.name).data]
    exact hlike

/-- C8 witness: the amended statement applied to a store holding "Mary" and
"John" with the wildcard-free prefix "ma", discharging the no-wildcard
hypothesis. -/
theorem claim_C8_witness :
    (SQLiteBackend.search_names ⟨[⟨"Mary", "F", 100, 1950⟩, ⟨"John", "M", 90, 1950⟩], []⟩
        "ma" 10).Forall (fun e =>
      List.isPrefixOf (lowerStr "ma").data (lowerStr e.name).data = true) :=
  (claim_C8_amended ⟨[⟨"Mary", "F", 100, 1950⟩, ⟨"John", "M", 90, 1950⟩], []⟩
      "ma" 10).2.2.2.1 (by decide)

theorem decadeSums_spec (rows : List NationalRow) :
    (decadeSums rows).Forall (fun t => ∃ k, t.decade = 10 * k) ∧
    ((decadeSums rows).map (·.count)).sum = (rows.map (·.count)).sum := by
  constructor
  · rw [List.forall_iff_forall_mem]
    intro t ht
    rcases List.mem_map.mp ht with ⟨d, hd, rfl⟩
    have hd' : d ∈ rows.map decadeOf := List.mem_dedup.mp ((List.mem_insertionSort _).mp hd)
    rcases List.mem_map.mp hd' with ⟨r, _, hrd⟩
    refine ⟨r.year / 10, ?_⟩
    show d = 10 * (r.year / 10)
    rw [← hrd]
    unfold decadeOf
    ring
  · unfold decadeSums
    rw [List.map_map]
    apply sum_over_groups decadeOf (·.count)
    · exact ((List.perm_insertionSort _ _).nodup_iff).mpr (List.nodup_dedup _)
    · intro r hr
      exact (List.mem_insertionSort _).mpr (List.mem_dedup.mpr (List.mem_map_of_mem _ hr))

/-- C9: every decade bucket of `get_decade_trends(n)` is a multiple of 10
(the row's year divided by 10 with integer truncation, times 10), and the
bucket counts sum to `get_name_stats(n).total_count` — in both engines. -/
theorem claim_C9 (db : DB) (n : String) :
    (SQLiteBackend.get_decade_trends db n none).Forall (fun t => ∃ k, t.decade = 10 * k) ∧
    (∀ s, SQLiteBackend.get_name_stats db n = some s →
      ((SQLiteBackend.get_decade_trends db n none).map (·.count)).sum = s.total_count) ∧
    (PostgresBackend.get_decade_trends db n none).Forall (fun t => ∃ k, t.decade = 10 * k) ∧
    (∀ s, PostgresBackend.get_name_stats db n = some s →
      ((PostgresBackend.get_decade_trends db n none).map (·.count)).sum = s.total_count) := by
  refine ⟨(decadeSums_spec _).1, ?_, (decadeSums_spec _).1, ?_⟩
  · intro s hs
    have htot := (statsQuery_some_spec n _ s hs).1
    rw [htot]
    exact (decadeSums_spec _).2
  · intro s hs
    have htot := (statsQuery_some_spec n _ s hs).1
    rw [htot]
    exact (decadeSums_spec _).2

/-- C9 witness: the sum of the decade buckets of a concrete two-row store
equals the total count reported by `get_name_stats`, the stats hypothesis
being discharged by evaluation. -/
theorem claim_C9_witness :
    ((SQLiteBackend.get_decade_trends
        ⟨[⟨"Mary", "F", 1000, 1950⟩, ⟨"Mary", "F", 500, 1961⟩], []⟩ "Mary" none).map
      (·.count)).sum =
      (⟨"Mary", 1500, 1950, 1000, 1950, 1961, [⟨"F", 1500⟩]⟩ : NameStats).total_count :=
  (claim_C9 ⟨[⟨"Mary", "F", 1000, 1950⟩, ⟨"Mary", "F", 500, 1961⟩], []⟩ "Mary").2.1
    ⟨"Mary", 1500, 1950, 1000, 1950, 1961, [⟨"F", 1500⟩]⟩ (by decide)

/-- C5: `get_name_stats(n)` returns None exactly when no national row
matches n, and otherwise reports: total_count = the sum of count over all
matching rows; peak_count = the maximum per-row count; peak_year = the year
of a single row achieving that maximum; first_year/last_year = the
minimum/maximum year of any matching row; gender_breakdown = the per-gender
sums over the matching rows (one entry per distinct gender).  This holds in
both engines, each over its own matching rows (`get_name_records`). -/
theorem claim_C5 (db : DB) (n : String) :
    (SQLiteBackend.get_name_stats db n = none ↔ SQLiteBackend.get_name_records db n = []) ∧
    (∀ s, SQLiteBackend.get_name_stats db n = some s →
      s.total_count = ((SQLiteBackend.get_name_records db n).map (·.count)).sum ∧
      (∀ r ∈ SQLiteBackend.get_name_records db n, r.count ≤ s.peak_count) ∧
      (∃ r ∈ SQLiteBackend.get_name_records db n, r.year = s.peak_year ∧ r.count = s.peak_count) ∧
      (∀ r ∈ SQLiteBackend.get_name_records db n, s.first_year ≤ r.year ∧ r.year ≤ s.last_year) ∧
      (∃ r ∈ SQLiteBackend.get_name_records db n, r.year = s.first_year) ∧
      (∃ r ∈ SQLiteBackend.get_name_records db n, r.year = s.last_year) ∧
      (∀ b ∈ s.gender_breakdown, b.total_count =
        (((SQLiteBackend.get_name_records db n).filter
          (fun r => r.gender == b.gender)).map (·.count)).sum) ∧
      s.gender_breakdown.map (·.gender) =
        ((SQLiteBackend.get_name_records db n).map (·.gender)).dedup) ∧
    (PostgresBackend.get_name_stats db n = none ↔ PostgresBackend.get_name_records db n = []) ∧
    (∀ s, PostgresBackend.get_name_stats db n = some s →
      s.total_count = ((PostgresBackend.get_name_records db n).map (·.count)).sum ∧
      (∀ r ∈ PostgresBackend.get_name_records db n, r.count ≤ s.peak_count) ∧
      (∃ r ∈ PostgresBackend.get_name_records db n, r.year = s.peak_year ∧ r.count = s.peak_count) ∧
      (∀ r ∈ PostgresBackend.get_name_records db n, s.first_year ≤ r.year ∧ r.year ≤ s.last_year) ∧
      (∃ r ∈ PostgresBackend.get_name_records db n, r.year = s.first_year) ∧
      (∃ r ∈ PostgresBackend.get_name_records db n, r.year = s.last_year) ∧
      (∀ b ∈ s.gender_breakdown, b.total_count =
        (((PostgresBackend.get_name_records db n).filter
          (fun r => r.gender == b.gender)).map (·.count)).sum) ∧
      s.gender_breakdown.map (·.gender) =
        ((PostgresBackend.get_name_records db n).map (·.gender)).dedup) := by
  have hgen : ∀ (records : List NationalRow) (s : NameStats), statsQuery n records = some s →
      s.total_count = (records.map (·.count)).sum ∧
      (∀ r ∈ records, r.count ≤ s.peak_count) ∧
      (∃ r ∈ records, r.year = s.peak_year ∧ r.count = s.peak_count) ∧
      (∀ r ∈ records, s.first_year ≤ r.year ∧ r.year ≤ s.last_year) ∧
      (∃ r ∈ records, r.year = s.first_year) ∧
      (∃ r ∈ records, r.year = s.last_year) ∧
      (∀ b ∈ s.gender_breakdown, b.total_count =
        ((records.filter (fun r => r.gender == b.gender)).map (·.count)).sum) ∧
      s.gender_breakdown.map (·.gender) = (records.map (·.gender)).dedup := by
    intro records s hs
    rcases statsQuery_some_spec n records s hs with ⟨h1, h2, h3, h4, h5, h6, h7⟩
    refine ⟨h1, h2, h3, h4, h5, h6, ?_, ?_⟩
    · rw [h7]
      exact genderSums_total records
    · rw [h7]
      exact genderSums_genders records
  exact ⟨statsQuery_none_iff n _, fun s => hgen _ s,
    statsQuery_none_iff n _, fun s => hgen _ s⟩

/-- C5 witness: the specification's own 1950 scenario evaluated in the model,
the stats hypothesis discharged by computation. -/
theorem claim_C5_witness :
    (⟨"Mary", 1000, 1950, 1000, 1950, 1950, [⟨"F", 1000⟩]⟩ : NameStats).total_count =
      ((SQLiteBackend.get_name_records
        ⟨[⟨"Mary", "F", 1000, 1950⟩, ⟨"John", "M", 900, 1950⟩], []⟩ "Mary").map (·.count)).sum :=
  ((claim_C5 ⟨[⟨"Mary", "F", 1000, 1950⟩, ⟨"John", "M", 900, 1950⟩], []⟩ "Mary").2.1
    ⟨"Mary", 1000, 1950, 1000, 1950, 1950, [⟨"F", 1000⟩]⟩ (by decide)).1

end NamesWebapp
